import Mathlib

/-!
Verification of `salt_ion_match.py` from pyEQL: a shallow embedding of the
component-ranking, salt-identification and salt-formula-building functions,
with theorems settling the specified properties.
-/

/-- A solution, as the code consumes it: the keys of its `components`
mapping (species formulas, in insertion order) and the `get_amount(item,
'mol')` query, modelled as an exact rational amount per species. -/
structure Solution where
  components : List String
  amount : String → Rat

/-- Outcome of `identify_salt`: the returned value (`none` embeds Python
`None`) together with the messages passed to `logger.warning`. -/
structure IdentifyOutcome where
  result : Option String
  warnings : List String
deriving DecidableEq

/-- Embeds `_sort_components` (lines 17-43): Python
`sorted(formula_list, key=mol_list.__getitem__, reverse=True)` is a stable
sort by descending molar amount; a stable sort's output is unique, and
`List.insertionSort` with `amount b <= amount a` (insert before the first
element of no greater key) realises exactly that order. -/
def _sort_components (s : Solution) : List String :=
  List.insertionSort (fun a b => s.amount b ≤ s.amount a) s.components

/-- Embeds the first field of Python `formula.split(sep)` for a one-character
separator: the substring before the first occurrence of `sep` (the whole
string when `sep` does not occur). -/
def split_first (sep : Char) (s : String) : String :=
  String.mk (s.toList.takeWhile (fun c => c ≠ sep))

/-- Embeds `_trim_formal_charge` (lines 138-159), parametric in the external
`chem.get_formal_charge` collaborator `g`. -/
def _trim_formal_charge (g : String → Int) (formula : String) : String :=
  let charge := g formula
  if 0 < charge then split_first '+' formula
  else if charge < 0 then split_first '-' formula
  else ""

/-- The stoichiometric coefficients `nu_cation, nu_anion` computed by
`build_salt` (lines 106-116): cross-multiplied absolute charges, both
collapsed to 1 when equal. -/
def salt_counts (g : String → Int) (cation anion : String) : Nat × Nat :=
  let nu_cation := (g anion).natAbs
  let nu_anion := (g cation).natAbs
  if nu_cation = nu_anion then (1, 1) else (nu_cation, nu_anion)

/-- One ion block of `build_salt` (lines 118-134): parenthesised with a
count suffix when the coefficient exceeds 1, bare otherwise. -/
def render_block (g : String → Int) (ion : String) (nu : Nat) : String :=
  if 1 < nu then "(" ++ _trim_formal_charge g ion ++ ")" ++ toString nu
  else _trim_formal_charge g ion

/-- Embeds `build_salt` (lines 80-136), parametric in the external charge
parser `g`. -/
def build_salt (g : String → Int) (cation anion : String) : String :=
  let counts := salt_counts g cation anion
  render_block g cation counts.1 ++ render_block g anion counts.2

/-- Embeds the scan loop of `identify_salt` (lines 68-74): fold over the
ranked list, filling the `cation`/`anion` slots (sentinel `""` = empty). -/
def scan_ions (g : String → Int) : List String → String → String → String × String
  | [], cation, anion => (cation, anion)
  | item :: rest, cation, anion =>
    if 0 < g item ∧ cation = "" then scan_ions g rest item anion
    else if g item < 0 ∧ anion = "" then scan_ions g rest cation item
    else scan_ions g rest cation anion

/-- Embeds `identify_salt` (lines 45-78). Python `sort_list[0]` on an empty
list raises `IndexError`, embedded as the `Except.error`; the non-aqueous
branch returns `None` after a `logger.warning` call; the scan runs over
`sort_list[0:]`, i.e. the whole ranked list. -/
def identify_salt (g : String → Int) (s : Solution) : Except String IdentifyOutcome :=
  match _sort_components s with
  | [] => Except.error "list index out of range"
  | first :: rest =>
    if first ≠ "H2O" then
      Except.ok ⟨none, ["H2O is not the most prominent component"]⟩
    else
      let slots := scan_ions g (first :: rest) "" ""
      Except.ok ⟨some (build_salt g slots.1 slots.2), []⟩

/-- Decimal digits to a natural number, for the numeric charge suffix. -/
def digits_to_nat (cs : List Char) : Nat :=
  cs.foldl (fun acc c => 10 * acc + (c.toNat - 48)) 0

/-- Modelled from the spec: `get_formal_charge` lives in the external
`chemical_formula` module, which is not part of this repository snapshot.
The spec says it "parses trailing charge markers from a formula string;
returns 0 for neutral species", the markers being "repeated `+`/`-`
characters, or `+n`/`-n` numeric" suffixes. -/
def get_formal_charge (formula : String) : Int :=
  let cs := formula.toList
  let suffix := cs.dropWhile (fun c => c ≠ '+' ∧ c ≠ '-')
  match suffix with
  | [] => 0
  | c :: rest =>
    let sign : Int := if c = '+' then 1 else -1
    if rest = [] then sign
    else if rest.all (fun d => d = c) then sign * (1 + (rest.length : Int))
    else if rest.all Char.isDigit then sign * (digits_to_nat rest : Int)
    else 0

example : get_formal_charge "H2O" = 0 := by decide
example : get_formal_charge "Na+" = 1 := by decide
example : get_formal_charge "Fe+++" = 3 := by decide
example : get_formal_charge "SO4-2" = -2 := by decide
example : get_formal_charge "Fe+3" = 3 := by decide
example : get_formal_charge "Mg+2" = 2 := by decide
example : get_formal_charge "Cl-" = -1 := by decide
example : get_formal_charge "" = 0 := by decide

example : build_salt get_formal_charge "Na+" "Cl-" = "NaCl" := by decide
example : build_salt get_formal_charge "Fe+2" "SO4-2" = "FeSO4" := by decide
example : build_salt get_formal_charge "Fe+3" "SO4-2" = "(Fe)2(SO4)3" := by decide
example : build_salt get_formal_charge "Mg+2" "Cl-" = "Mg(Cl)2" := by decide

example :
    _sort_components ⟨["Na+", "H2O"], fun x => if x = "H2O" then 2 else 1⟩ =
      ["H2O", "Na+"] := by decide

/-! ### Helper lemmas -/

/-- Dispatch form of `identify_salt` once the ranked list is known. -/
theorem identify_salt_eq (g : String → Int) (s : Solution) (first : String)
    (rest : List String) (h : _sort_components s = first :: rest) :
    identify_salt g s =
      if first ≠ "H2O" then
        Except.ok ⟨none, ["H2O is not the most prominent component"]⟩
      else
        Except.ok ⟨some (build_salt g (scan_ions g (first :: rest) "" "").1
          (scan_ions g (first :: rest) "" "").2), []⟩ := by
  unfold identify_salt
  rw [h]

/-- The scan loop fills each slot with the first nonempty matching species;
with a charge parser that maps `""` to 0 (an empty string carries no charge
marker), this is the first species of the matching sign. -/
theorem scan_ions_spec (g : String → Int) (h0 : g "" = 0) :
    ∀ (l : List String) (c a : String),
      scan_ions g l c a =
        ((if c = "" then ((l.find? fun x => decide (0 < g x)).getD "") else c),
         (if a = "" then ((l.find? fun x => decide (g x < 0)).getD "") else a))
  | [], c, a => by
    have h1 : (if c = "" then "" else c) = c := by split <;> simp_all
    have h2 : (if a = "" then "" else a) = a := by split <;> simp_all
    simp only [scan_ions, List.find?_nil, Option.getD_none, h1, h2]
  | x :: l, c, a => by
    by_cases hpos : 0 < g x
    · have hnneg : ¬ g x < 0 := not_lt_of_gt hpos
      have hx : x ≠ "" := fun hx => by rw [hx, h0] at hpos; exact lt_irrefl 0 hpos
      by_cases hc : c = ""
      · rw [scan_ions, if_pos ⟨hpos, hc⟩, scan_ions_spec g h0 l x a]
        simp [hx, hc, List.find?_cons, hpos, hnneg]
      · rw [scan_ions, if_neg (fun hand => hc hand.2), if_neg (fun hand => hnneg hand.1),
          scan_ions_spec g h0 l c a]
        simp [hc, List.find?_cons, hpos, hnneg]
    · by_cases hneg : g x < 0
      · have hx : x ≠ "" := fun hx => by rw [hx, h0] at hneg; exact lt_irrefl 0 hneg
        by_cases ha : a = ""
        · rw [scan_ions, if_neg (fun hand => hpos hand.1), if_pos ⟨hneg, ha⟩,
            scan_ions_spec g h0 l c x]
          simp [hx, ha, List.find?_cons, hpos, hneg]
        · rw [scan_ions, if_neg (fun hand => hpos hand.1), if_neg (fun hand => ha hand.2),
            scan_ions_spec g h0 l c a]
          simp [ha, List.find?_cons, hpos, hneg]
      · rw [scan_ions, if_neg (fun hand => hpos hand.1), if_neg (fun hand => hneg hand.1),
          scan_ions_spec g h0 l c a]
        simp [List.find?_cons, hpos, hneg]

/-- When every species of the list is neutral, the scan leaves both slots
unchanged. -/
theorem scan_ions_zero (g : String → Int) :
    ∀ (l : List String) (c a : String), (∀ x ∈ l, g x = 0) →
      scan_ions g l c a = (c, a)
  | [], c, a, _ => rfl
  | x :: l, c, a, h => by
    have hx : g x = 0 := h x (List.mem_cons_self x l)
    rw [scan_ions, if_neg (fun hand => by rw [hx] at hand; exact lt_irrefl 0 hand.1),
      if_neg (fun hand => by rw [hx] at hand; exact lt_irrefl 0 hand.1)]
    exact scan_ions_zero g l c a (fun y hy => h y (List.mem_cons_of_mem x hy))

/-- When the two parsed charges are exact opposites, the coefficients
collapse and `build_salt` is the bare concatenation of the stripped ions. -/
theorem build_salt_eq_of_opp (g : String → Int) (cation anion : String)
    (h : (g anion).natAbs = (g cation).natAbs) :
    build_salt g cation anion =
      _trim_formal_charge g cation ++ _trim_formal_charge g anion := by
  unfold build_salt salt_counts render_block
  simp [h]

/-- `build_salt` on two empty slots returns the empty string, whatever the
charge parser assigns to `""`. -/
theorem build_salt_empty (g : String → Int) : build_salt g "" "" = "" := by
  have h : _trim_formal_charge g "" = "" := by
    unfold _trim_formal_charge split_first
    rcases lt_trichotomy (g "") 0 with hlt | heq | hgt
    · simp [hlt, not_lt_of_gt hlt, String.toList]
    · simp [heq]
    · simp [hgt, String.toList]
  rw [build_salt_eq_of_opp g "" "" rfl, h]
  rfl

/-! ### Claim theorems -/

/-- C1: for every solution whose ranked list is non-empty, `identify_salt`
returns `None` if and only if the highest-ranked species is not `"H2O"`; on
that path it emits the warning log record, and otherwise it returns a
string. -/
theorem identify_salt_null_iff_nonaqueous (g : String → Int) (s : Solution)
    (first : String) (rest : List String)
    (h : _sort_components s = first :: rest) :
    ((∃ w, identify_salt g s = Except.ok ⟨none, w⟩) ↔ first ≠ "H2O") ∧
    (first ≠ "H2O" →
      identify_salt g s =
        Except.ok ⟨none, ["H2O is not the most prominent component"]⟩) ∧
    (first = "H2O" →
      ∃ str, identify_salt g s = Except.ok ⟨some str, []⟩) := by
  rw [identify_salt_eq g s first rest h]
  by_cases hf : first = "H2O"
  · simp [hf]
  · simp [hf]

/-- C1 witness at a concrete non-aqueous-dominant solution. -/
theorem identify_salt_null_iff_nonaqueous_witness :
    _sort_components ⟨["NaCl"], fun _ => 1⟩ = ["NaCl"] ∧
    identify_salt get_formal_charge ⟨["NaCl"], fun _ => 1⟩ =
      Except.ok ⟨none, ["H2O is not the most prominent component"]⟩ :=
  ⟨by decide,
   (identify_salt_null_iff_nonaqueous get_formal_charge _ "NaCl" []
      (by decide)).2.1 (by decide)⟩

/-- C2: the ranked list is a permutation of the solution's species keys, and
the molar amounts are non-increasing along it. -/
theorem sort_components_perm_sorted (s : Solution) :
    (_sort_components s).Perm s.components ∧
    ∀ (i j : Fin (_sort_components s).length), i < j →
      s.amount ((_sort_components s).get j) ≤
        s.amount ((_sort_components s).get i) := by
  constructor
  · exact List.perm_insertionSort _ _
  · haveI : IsTotal String (fun a b => s.amount b ≤ s.amount a) :=
      ⟨fun a b => le_total (s.amount b) (s.amount a)⟩
    haveI : IsTrans String (fun a b => s.amount b ≤ s.amount a) :=
      ⟨fun a b c hab hbc => le_trans hbc hab⟩
    have hs := List.sorted_insertionSort (fun a b => s.amount b ≤ s.amount a)
      s.components
    intro i j hij
    exact hs.rel_get_of_lt hij

/-- C2 witness at a concrete two-species solution. -/
theorem sort_components_perm_sorted_witness :
    (_sort_components ⟨["Na+", "H2O"], fun x => if x = "H2O" then 2 else 1⟩).Perm
        ["Na+", "H2O"] ∧
    (⟨["Na+", "H2O"], fun x => if x = "H2O" then 2 else 1⟩ : Solution).amount
        ((_sort_components
          ⟨["Na+", "H2O"], fun x => if x = "H2O" then 2 else 1⟩).get
            ⟨1, by decide⟩) ≤
      (⟨["Na+", "H2O"], fun x => if x = "H2O" then 2 else 1⟩ : Solution).amount
        ((_sort_components
          ⟨["Na+", "H2O"], fun x => if x = "H2O" then 2 else 1⟩).get
            ⟨0, by decide⟩) :=
  ⟨(sort_components_perm_sorted _).1,
   (sort_components_perm_sorted _).2 ⟨0, by decide⟩ ⟨1, by decide⟩ (by decide)⟩

/-- C9: on a solution with no components, `identify_salt` neither returns
`None` nor a string: indexing the empty ranked list fails. -/
theorem identify_salt_empty_components (g : String → Int) (s : Solution)
    (h : s.components = []) :
    identify_salt g s = Except.error "list index out of range" := by
  have hs : _sort_components s = [] := by
    unfold _sort_components
    rw [h]
    rfl
  unfold identify_salt
  rw [hs]

/-- C9 witness at the concrete empty solution. -/
theorem identify_salt_empty_components_witness :
    (⟨[], fun _ => 0⟩ : Solution).components = [] ∧
    identify_salt get_formal_charge ⟨[], fun _ => 0⟩ =
      Except.error "list index out of range" :=
  ⟨rfl, identify_salt_empty_components get_formal_charge _ rfl⟩

/-- C10: when water tops the ranking and every species is neutral, both
slots stay empty and `identify_salt` returns the empty string (not `None`). -/
theorem identify_salt_pure_water (g : String → Int) (s : Solution)
    (rest : List String) (h : _sort_components s = "H2O" :: rest)
    (hz : ∀ x ∈ s.components, g x = 0) :
    identify_salt g s = Except.ok ⟨some "", []⟩ := by
  have hmem : ∀ x ∈ ("H2O" :: rest : List String), g x = 0 := by
    intro x hx
    apply hz
    have hp : (_sort_components s).Perm s.components :=
      List.perm_insertionSort _ _
    exact hp.mem_iff.mp (h ▸ hx)
  rw [identify_salt_eq g s "H2O" rest h, if_neg (fun hne => hne rfl),
    scan_ions_zero g _ "" "" hmem]
  simp [build_salt_empty]

/-- C10 witness at the concrete pure-water solution. -/
theorem identify_salt_pure_water_witness :
    _sort_components ⟨["H2O"], fun _ => 1⟩ = ["H2O"] ∧
    (∀ x ∈ (⟨["H2O"], fun _ => 1⟩ : Solution).components,
      get_formal_charge x = 0) ∧
    identify_salt get_formal_charge ⟨["H2O"], fun _ => 1⟩ =
      Except.ok ⟨some "", []⟩ :=
  ⟨by decide, by decide,
   identify_salt_pure_water get_formal_charge _ [] (by decide) (by decide)⟩

/-- Positive-charge branch of `_trim_formal_charge`. -/
theorem trim_of_pos (g : String → Int) (f : String) (h : 0 < g f) :
    _trim_formal_charge g f = split_first '+' f := by
  unfold _trim_formal_charge
  rw [if_pos h]

/-- Negative-charge branch of `_trim_formal_charge`. -/
theorem trim_of_neg (g : String → Int) (f : String) (h : g f < 0) :
    _trim_formal_charge g f = split_first '-' f := by
  unfold _trim_formal_charge
  rw [if_neg (lt_asymm h), if_pos h]

/-- Zero-charge branch of `_trim_formal_charge`. -/
theorem trim_of_zero (g : String → Int) (f : String) (h : g f = 0) :
    _trim_formal_charge g f = "" := by
  unfold _trim_formal_charge
  rw [h]
  norm_num

/-- C3: on a ranked list headed by the water token, the scan assigns to the
cation slot exactly the first species of positive formal charge and to the
anion slot exactly the first species of negative formal charge; neutral
species are skipped and a filled slot is never reassigned. The charge
parser maps the empty string (not a species formula, but the code's
empty-slot sentinel) to charge 0, as a formula with no charge marker. -/
theorem scan_ions_first_match (g : String → Int) (l : List String)
    (rest : List String) (h0 : g "" = 0) (hw : l = "H2O" :: rest) :
    scan_ions g l "" "" =
      (((l.find? fun x => decide (0 < g x)).getD ""),
       ((l.find? fun x => decide (g x < 0)).getD "")) := by
  subst hw
  simpa using scan_ions_spec g h0 ("H2O" :: rest) "" ""

/-- C3 witness on a concrete ranked list. -/
theorem scan_ions_first_match_witness :
    get_formal_charge "" = 0 ∧
    scan_ions get_formal_charge ["H2O", "Na+", "Cl-"] "" "" =
      ((((["H2O", "Na+", "Cl-"] : List String).find?
          fun x => decide (0 < get_formal_charge x)).getD ""),
       (((["H2O", "Na+", "Cl-"] : List String).find?
          fun x => decide (get_formal_charge x < 0)).getD "")) :=
  ⟨by decide,
   scan_ions_first_match get_formal_charge _ ["Na+", "Cl-"] (by decide) rfl⟩

/-- C4: for parsed charges a > 0 on the cation and b < 0 on the anion, the
stoichiometric counts of `build_salt` (collapse case included) satisfy
a * count_cation + b * count_anion = 0. -/
theorem salt_counts_charge_neutral (g : String → Int) (cation anion : String)
    (a b : Int) (hc : g cation = a) (ha : g anion = b) (hpos : 0 < a)
    (hneg : b < 0) :
    a * ((salt_counts g cation anion).1 : Int) +
      b * ((salt_counts g cation anion).2 : Int) = 0 := by
  subst hc ha
  unfold salt_counts
  by_cases h : (g anion).natAbs = (g cation).natAbs
  · rw [if_pos h]
    simp only [Nat.cast_one, mul_one]
    omega
  · rw [if_neg h]
    show g cation * ((g anion).natAbs : Int) +
      g anion * ((g cation).natAbs : Int) = 0
    have h1 : ((g anion).natAbs : Int) = -(g anion) := by omega
    have h2 : ((g cation).natAbs : Int) = g cation := by omega
    rw [h1, h2]
    ring

/-- C4 witness at the Fe+3 / SO4-2 charges. -/
theorem salt_counts_charge_neutral_witness :
    get_formal_charge "Fe+3" = 3 ∧ get_formal_charge "SO4-2" = -2 ∧
    (0 : Int) < 3 ∧ (-2 : Int) < 0 ∧
    3 * ((salt_counts get_formal_charge "Fe+3" "SO4-2").1 : Int) +
      (-2) * ((salt_counts get_formal_charge "Fe+3" "SO4-2").2 : Int) = 0 :=
  ⟨by decide, by decide, by decide, by decide,
   salt_counts_charge_neutral get_formal_charge "Fe+3" "SO4-2" 3 (-2)
     (by decide) (by decide) (by decide) (by decide)⟩

/-- C7: when the two parsed charges are nonzero, opposite in sign and equal
in magnitude, both counts collapse to 1 and `build_salt` is the bare
concatenation of the charge-stripped ions, with no parentheses or count
suffixes; in particular Na+/Cl- gives "NaCl" and Fe+2/SO4-2 gives "FeSO4". -/
theorem build_salt_collapse (g : String → Int) (cation anion : String)
    (zc za : Int) (hc : g cation = zc) (ha : g anion = za) (hz : zc ≠ 0)
    (hopp : za = -zc) :
    (build_salt g cation anion =
      _trim_formal_charge g cation ++ _trim_formal_charge g anion) ∧
    (g "Na+" = 1 → g "Cl-" = -1 → build_salt g "Na+" "Cl-" = "NaCl") ∧
    (g "Fe+2" = 2 → g "SO4-2" = -2 →
      build_salt g "Fe+2" "SO4-2" = "FeSO4") := by
  refine ⟨?_, ?_, ?_⟩
  · apply build_salt_eq_of_opp
    rw [hc, ha, hopp, Int.natAbs_neg]
  · intro h1 h2
    rw [build_salt_eq_of_opp g _ _ (by rw [h1, h2]; rfl),
      trim_of_pos g _ (by rw [h1]; decide), trim_of_neg g _ (by rw [h2]; decide)]
    decide
  · intro h1 h2
    rw [build_salt_eq_of_opp g _ _ (by rw [h1, h2]; rfl),
      trim_of_pos g _ (by rw [h1]; decide), trim_of_neg g _ (by rw [h2]; decide)]
    decide

/-- C7 witness at the spec-modelled charge parser. -/
theorem build_salt_collapse_witness :
    get_formal_charge "Na+" = 1 ∧ get_formal_charge "Cl-" = -1 ∧
    build_salt get_formal_charge "Na+" "Cl-" = "NaCl" ∧
    build_salt get_formal_charge "Fe+2" "SO4-2" = "FeSO4" :=
  ⟨by decide, by decide,
   (build_salt_collapse get_formal_charge "Na+" "Cl-" 1 (-1) (by decide)
      (by decide) (by decide) (by decide)).2.1 (by decide) (by decide),
   (build_salt_collapse get_formal_charge "Fe+2" "SO4-2" 2 (-2) (by decide)
      (by decide) (by decide) (by decide)).2.2 (by decide) (by decide)⟩

/-- C8: `_trim_formal_charge` returns the substring before the first `+`
when the parsed charge is positive, the substring before the first `-` when
it is negative, and the empty string when it is zero; in particular Fe+++
strips to "Fe", SO4-2 to "SO4" and Na+ to "Na". -/
theorem trim_formal_charge_cases (g : String → Int) (formula : String) :
    (0 < g formula →
      _trim_formal_charge g formula = split_first '+' formula) ∧
    (g formula < 0 →
      _trim_formal_charge g formula = split_first '-' formula) ∧
    (g formula = 0 → _trim_formal_charge g formula = "") ∧
    (0 < g "Fe+++" → _trim_formal_charge g "Fe+++" = "Fe") ∧
    (g "SO4-2" < 0 → _trim_formal_charge g "SO4-2" = "SO4") ∧
    (0 < g "Na+" → _trim_formal_charge g "Na+" = "Na") := by
  refine ⟨trim_of_pos g formula, trim_of_neg g formula, trim_of_zero g formula,
    ?_, ?_, ?_⟩
  · intro h
    rw [trim_of_pos g _ h]
    decide
  · intro h
    rw [trim_of_neg g _ h]
    decide
  · intro h
    rw [trim_of_pos g _ h]
    decide

/-- C8 witness at the spec-modelled charge parser. -/
theorem trim_formal_charge_cases_witness :
    0 < get_formal_charge "Fe+++" ∧
    _trim_formal_charge get_formal_charge "Fe+++" = "Fe" ∧
    _trim_formal_charge get_formal_charge "SO4-2" = "SO4" ∧
    _trim_formal_charge get_formal_charge "Na+" = "Na" :=
  ⟨by decide,
   (trim_formal_charge_cases get_formal_charge "Fe+++").2.2.2.1 (by decide),
   (trim_formal_charge_cases get_formal_charge "SO4-2").2.2.2.2.1 (by decide),
   (trim_formal_charge_cases get_formal_charge "Na+").2.2.2.2.2 (by decide)⟩

/-- C5 counterexample: with the spec-modelled charge parser, Fe+3 and SO4-2
carry charges +3 and -2, yet `build_salt` wraps the cation block in
parentheses (the count 2 exceeds 1), producing "(Fe)2(SO4)3" and not the
claimed "Fe2(SO4)3". -/
theorem build_salt_ferric_sulfate_counterexample :
    get_formal_charge "Fe+3" = 3 ∧ get_formal_charge "SO4-2" = -2 ∧
    build_salt get_formal_charge "Fe+3" "SO4-2" = "(Fe)2(SO4)3" ∧
    build_salt get_formal_charge "Fe+3" "SO4-2" ≠ "Fe2(SO4)3" := by
  decide

/-- C5 amended: for any charge parser assigning +3 to "Fe+3" and -2 to
"SO4-2", `build_salt` returns "(Fe)2(SO4)3". -/
theorem build_salt_ferric_sulfate (g : String → Int) (h1 : g "Fe+3" = 3)
    (h2 : g "SO4-2" = -2) :
    build_salt g "Fe+3" "SO4-2" = "(Fe)2(SO4)3" := by
  have hcounts : salt_counts g "Fe+3" "SO4-2" = (2, 3) := by
    unfold salt_counts
    rw [h1, h2]
    decide
  have ht1 : _trim_formal_charge g "Fe+3" = "Fe" := by
    rw [trim_of_pos g _ (by rw [h1]; decide)]
    decide
  have ht2 : _trim_formal_charge g "SO4-2" = "SO4" := by
    rw [trim_of_neg g _ (by rw [h2]; decide)]
    decide
  simp only [build_salt, hcounts, render_block, ht1, ht2]
  decide

/-- C5 witness for the amended statement, at the spec-modelled parser. -/
theorem build_salt_ferric_sulfate_witness :
    get_formal_charge "Fe+3" = 3 ∧ get_formal_charge "SO4-2" = -2 ∧
    build_salt get_formal_charge "Fe+3" "SO4-2" = "(Fe)2(SO4)3" :=
  ⟨by decide, by decide,
   build_salt_ferric_sulfate get_formal_charge (by decide) (by decide)⟩

/-- C6 counterexample: with the spec-modelled charge parser, Mg+2 and Cl-
carry charges +2 and -1, yet `build_salt` wraps the anion block in
parentheses (the count 2 exceeds 1), producing "Mg(Cl)2" and not the
claimed "MgCl2". -/
theorem build_salt_magnesium_chloride_counterexample :
    get_formal_charge "Mg+2" = 2 ∧ get_formal_charge "Cl-" = -1 ∧
    build_salt get_formal_charge "Mg+2" "Cl-" = "Mg(Cl)2" ∧
    build_salt get_formal_charge "Mg+2" "Cl-" ≠ "MgCl2" := by
  decide

/-- C6 amended: for any charge parser assigning +2 to "Mg+2" and -1 to
"Cl-", `build_salt` returns "Mg(Cl)2". -/
theorem build_salt_magnesium_chloride (g : String → Int) (h1 : g "Mg+2" = 2)
    (h2 : g "Cl-" = -1) :
    build_salt g "Mg+2" "Cl-" = "Mg(Cl)2" := by
  have hcounts : salt_counts g "Mg+2" "Cl-" = (1, 2) := by
    unfold salt_counts
    rw [h1, h2]
    decide
  have ht1 : _trim_formal_charge g "Mg+2" = "Mg" := by
    rw [trim_of_pos g _ (by rw [h1]; decide)]
    decide
  have ht2 : _trim_formal_charge g "Cl-" = "Cl" := by
    rw [trim_of_neg g _ (by rw [h2]; decide)]
    decide
  simp only [build_salt, hcounts, render_block, ht1, ht2]
  decide

/-- C6 witness for the amended statement, at the spec-modelled parser. -/
theorem build_salt_magnesium_chloride_witness :
    get_formal_charge "Mg+2" = 2 ∧ get_formal_charge "Cl-" = -1 ∧
    build_salt get_formal_charge "Mg+2" "Cl-" = "Mg(Cl)2" :=
  ⟨by decide, by decide,
   build_salt_magnesium_chloride get_formal_charge (by decide) (by decide)⟩
